import Mathlib

/-!
Verification of the force-directed layout and selection engine of the
WTG (walk-the-graph) mathematics knowledge-graph visualizer.

The development shallowly embeds the relevant JavaScript classes:

* `NodeManager.updatePositionsWithForces` (repulsion, attraction,
  damping, 2D pinning, level constraint; sequential in-place update over
  the node map, so later nodes observe earlier nodes' updated positions),
* `ForceSimulation` (part_002 variant: center pull, boundary clamp,
  stability counter, auto-disable, setters),
* `LayoutManager.switchLayout` and the layout-selector change handler of
  `UIManager.initLayoutControls`,
* `EdgeManager.highlightConnections` and `SelectionManager`
  (`selectNode`, `selectNextNode`).

JavaScript numbers are modelled as real numbers (`ℝ`), `Math.sqrt` as
`Real.sqrt`.  JavaScript objects used as id-keyed maps are modelled as
association lists in insertion order, since `for (const id in obj)`
iterates keys in insertion order.  Rendering-only effects (materials,
label sprites, camera focus, sidebar, console logging) are omitted; a
node's highlight material is modelled by an explicit `HState` field.
The wall-clock auto-disable timer (`setTimeout`) is modelled by an
armed flag plus an epoch counter that increments on every
`resetAutoDisableTimer` call.
-/

namespace WTG

/-- Three-dimensional position vector (a `THREE.Vector3` stand-in). -/
@[ext]
structure Vec3 where
  x : ℝ
  y : ℝ
  z : ℝ

namespace Vec3

instance : Zero Vec3 := ⟨⟨0, 0, 0⟩⟩

noncomputable instance : Add Vec3 := ⟨fun a b => ⟨a.x + b.x, a.y + b.y, a.z + b.z⟩⟩

noncomputable instance : Sub Vec3 := ⟨fun a b => ⟨a.x - b.x, a.y - b.y, a.z - b.z⟩⟩

noncomputable instance : SMul ℝ Vec3 := ⟨fun c v => ⟨c * v.x, c * v.y, c * v.z⟩⟩

@[simp] theorem zero_x : (0 : Vec3).x = 0 := rfl

@[simp] theorem zero_y : (0 : Vec3).y = 0 := rfl

@[simp] theorem zero_z : (0 : Vec3).z = 0 := rfl

@[simp] theorem add_x (a b : Vec3) : (a + b).x = a.x + b.x := rfl

@[simp] theorem add_y (a b : Vec3) : (a + b).y = a.y + b.y := rfl

@[simp] theorem add_z (a b : Vec3) : (a + b).z = a.z + b.z := rfl

@[simp] theorem sub_x (a b : Vec3) : (a - b).x = a.x - b.x := rfl

@[simp] theorem sub_y (a b : Vec3) : (a - b).y = a.y - b.y := rfl

@[simp] theorem sub_z (a b : Vec3) : (a - b).z = a.z - b.z := rfl

@[simp] theorem smul_x (c : ℝ) (v : Vec3) : (c • v).x = c * v.x := rfl

@[simp] theorem smul_y (c : ℝ) (v : Vec3) : (c • v).y = c * v.y := rfl

@[simp] theorem smul_z (c : ℝ) (v : Vec3) : (c • v).z = c * v.z := rfl

end Vec3

/-- Euclidean distance between two positions, exactly as the source
computes it: `Math.sqrt(dx*dx + dy*dy + dz*dz)`. -/
noncomputable def dist3 (p q : Vec3) : ℝ :=
  Real.sqrt ((p.x - q.x) * (p.x - q.x) + (p.y - q.y) * (p.y - q.y) +
    (p.z - q.z) * (p.z - q.z))

/-- Euclidean norm of a position, as `applyBoundaries` computes it:
`Math.sqrt(x*x + y*y + z*z)`. -/
noncomputable def norm3 (v : Vec3) : ℝ :=
  Real.sqrt (v.x * v.x + v.y * v.y + v.z * v.z)

/-- Unit vector pointing from `q` to `p` (used only to state the
repulsion claim; junk value when the distance is zero). -/
noncomputable def unit3 (p q : Vec3) : Vec3 :=
  (1 / dist3 p q) • (p - q)

/-- Highlight state of a node's material, as set by
`NodeManager.updateNodeState` (`'default' | 'selected' | 'related'`). -/
inductive HState where
  | default
  | selected
  | related
deriving DecidableEq

/-- The portion of a `THREE.Mesh` node object that the simulation and
selection code reads and writes: `position` plus the `userData` fields
`connections` and `level`, and the highlight material state. -/
structure NodeObj where
  position : Vec3
  connections : ℕ
  level : ℕ
  hstate : HState

/-- Edge record as returned by `EdgeManager.getEdgeData()`:
`{ source, target, type }`. -/
structure EdgeData where
  source : String
  target : String
  type : String
deriving DecidableEq

/-- Node map (`this.nodeObjects`) as an association list in insertion
order. -/
abbrev NodeMap := List (String × NodeObj)

/-- Key lookup in a node map (`this.nodeObjects[id]`). -/
def lookupNode (id : String) : NodeMap → Option NodeObj
  | [] => none
  | (k, n) :: rest => if k = id then some n else lookupNode id rest

/-- Overwrite the entry for key `id` (in-place mutation of the object
stored under `id`). -/
def setNode (id : String) (obj : NodeObj) : NodeMap → NodeMap
  | [] => []
  | (k, n) :: rest =>
    if k = id then (k, obj) :: setNode id obj rest
    else (k, n) :: setNode id obj rest

/-! ## NodeManager.updatePositionsWithForces (src/unnamed/part_004) -/

/-- Repulsion contribution that the node at position `obj` accumulates
from one other node at position `other`, from the inner repulsion loop
of `NodeManager.updatePositionsWithForces`.  In 2D mode the z-difference
is treated as 0 and no z-force is accumulated. -/
noncomputable def repulsionTerm (minNodeDistance : ℝ) (is2DMode : Bool)
    (obj other : Vec3) : Vec3 :=
  let dx := obj.x - other.x
  let dy := obj.y - other.y
  let dz := if is2DMode then 0 else obj.z - other.z
  let distance := Real.sqrt (dx * dx + dy * dy + dz * dz)
  if 0 < distance ∧ distance < minNodeDistance * 3 then
    let repulsionFactor :=
      if distance < minNodeDistance then
        (minNodeDistance * 2) / (distance * distance)
      else
        30 / (distance * distance)
    { x := dx * repulsionFactor
      y := dy * repulsionFactor
      z := if is2DMode then 0 else dz * repulsionFactor }
  else 0

/-- Total repulsion force on the node with key `id` at position `pos`,
summed over every other entry of the node map (`id === otherId` pairs
are skipped). -/
noncomputable def repulsionForce (minNodeDistance : ℝ) (is2DMode : Bool)
    (id : String) (pos : Vec3) (nodes : NodeMap) : Vec3 :=
  nodes.foldl
    (fun f p =>
      if p.1 = id then f
      else f + repulsionTerm minNodeDistance is2DMode pos p.2.position)
    0

/-- Attraction contribution that the node `obj` (with `connections`
connection count) accumulates from one edge whose other endpoint sits at
`other`.  The connection strength is
`obj.userData.connections * 0.01 || 0.03`: the falsy fallback to `0.03`
fires exactly when the connection count is `0`. -/
noncomputable def attractionTerm (is2DMode : Bool) (connections : ℕ)
    (obj other : Vec3) : Vec3 :=
  let dx := other.x - obj.x
  let dy := other.y - obj.y
  let dz := if is2DMode then 0 else other.z - obj.z
  let distance := Real.sqrt (dx * dx + dy * dy + dz * dz)
  let connectionStrength : ℝ :=
    if connections = 0 then 0.03 else (connections : ℝ) * 0.01
  if 20 < distance then
    let attractionFactor := distance * connectionStrength
    { x := dx * attractionFactor
      y := dy * attractionFactor
      z := if is2DMode then 0 else dz * attractionFactor }
  else 0

/-- Total attraction force on the node `obj` with key `id`: every edge
touching `id` whose other endpoint is present in the node map
contributes one `attractionTerm`; an edge whose other endpoint is
missing is skipped (`if (otherObj)` guard). -/
noncomputable def attractionForce (is2DMode : Bool) (id : String)
    (obj : NodeObj) (edges : List EdgeData) (nodes : NodeMap) : Vec3 :=
  edges.foldl
    (fun f e =>
      if e.source = id ∨ e.target = id then
        let otherId := if e.source = id then e.target else e.source
        match lookupNode otherId nodes with
        | some other =>
          f + attractionTerm is2DMode obj.connections obj.position other.position
        | none => f
      else f)
    0

/-- The per-node body of the `for (const id in this.nodeObjects)` loop:
accumulate repulsion and attraction forces, apply them with the
hard-coded damping factor `0.03`, pin z to 0 in 2D mode, apply the
level constraint (`targetY = -50 + level*20`, 1% pull), and return the
updated node together with its movement magnitude. -/
noncomputable def updateNodePhysics (minNodeDistance : ℝ) (is2DMode : Bool)
    (edges : List EdgeData) (nodes : NodeMap) (id : String) (obj : NodeObj) :
    NodeObj × ℝ :=
  let force := repulsionForce minNodeDistance is2DMode id obj.position nodes +
    attractionForce is2DMode id obj edges nodes
  let dampingFactor : ℝ := 0.03
  let old := obj.position
  let p1 : Vec3 :=
    { x := old.x + force.x * dampingFactor
      y := old.y + force.y * dampingFactor
      z := if is2DMode then 0 else old.z + force.z * dampingFactor }
  let p2 : Vec3 := if is2DMode then { p1 with z := 0 } else p1
  let targetY : ℝ := -50 + (obj.level : ℝ) * 20
  let p3 : Vec3 := { p2 with y := p2.y + (targetY - p2.y) * 0.01 }
  let movement := Real.sqrt ((p3.x - old.x) * (p3.x - old.x) +
    (p3.y - old.y) * (p3.y - old.y) + (p3.z - old.z) * (p3.z - old.z))
  ({ obj with position := p3 }, movement)

/-- One iteration of the outer node loop: read the node with key `id`
from the current (partially updated) map, update it, and write it back.
The accumulator carries the node map and the running total movement. -/
noncomputable def physicsFoldStep (minNodeDistance : ℝ) (is2DMode : Bool)
    (edges : List EdgeData) (acc : NodeMap × ℝ) (id : String) : NodeMap × ℝ :=
  match lookupNode id acc.1 with
  | none => acc
  | some obj =>
    let r := updateNodePhysics minNodeDistance is2DMode edges acc.1 id obj
    (setNode id r.1 acc.1, acc.2 + r.2)

/-- `NodeManager.updatePositionsWithForces(edges, is2DMode)`.  The loop
mutates node positions in place, so each node's force computation sees
the already-updated positions of the nodes processed before it; this is
modelled by folding over the key list while threading the node map.
Returns the updated map and the total movement. -/
noncomputable def updatePositionsWithForces (minNodeDistance : ℝ)
    (edges : List EdgeData) (is2DMode : Bool) (nodes : NodeMap) : NodeMap × ℝ :=
  (nodes.map Prod.fst).foldl (physicsFoldStep minNodeDistance is2DMode edges)
    (nodes, 0)

/-! ## ForceSimulation (src/unnamed/part_002) -/

/-- Center pull applied to one node by
`ForceSimulation.updatePositionsWithForcesEnhanced`: move every
coordinate `centerPullStrength` of the way toward the origin; the
z-coordinate is left untouched in 2D mode. -/
noncomputable def centerPullNode (centerPullStrength : ℝ) (is2DMode : Bool)
    (n : NodeObj) : NodeObj :=
  let dx := 0 - n.position.x
  let dy := 0 - n.position.y
  let dz := if is2DMode then 0 else 0 - n.position.z
  { n with
    position :=
      { x := n.position.x + dx * centerPullStrength
        y := n.position.y + dy * centerPullStrength
        z := if is2DMode then n.position.z
             else n.position.z + dz * centerPullStrength } }

/-- `ForceSimulation.updatePositionsWithForcesEnhanced`: the
`NodeManager` force pass followed by the center-pull pass.  The
returned movement is the one reported by the force pass. -/
noncomputable def updatePositionsWithForcesEnhanced (minNodeDistance
    centerPullStrength : ℝ) (edges : List EdgeData) (is2DMode : Bool)
    (nodes : NodeMap) : NodeMap × ℝ :=
  let r := updatePositionsWithForces minNodeDistance edges is2DMode nodes
  (r.1.map (fun p => (p.1, centerPullNode centerPullStrength is2DMode p.2)), r.2)

/-- Boundary clamp for one node (`ForceSimulation.applyBoundaries` loop
body): a node farther than `maxDist` from the origin is radially
rescaled by `maxDist / dist`. -/
noncomputable def clampNode (maxDist : ℝ) (n : NodeObj) : NodeObj :=
  let dist := norm3 n.position
  if maxDist < dist then
    let factor := maxDist / dist
    { n with
      position :=
        { x := n.position.x * factor
          y := n.position.y * factor
          z := n.position.z * factor } }
  else n

/-- `ForceSimulation.applyBoundaries()` over the whole node map. -/
noncomputable def applyBoundaries (maxDist : ℝ) (nodes : NodeMap) : NodeMap :=
  nodes.map (fun p => (p.1, clampNode maxDist p.2))

/-- The full per-tick position update of `ForceSimulation.simulateStep`:
enhanced force pass (forces + center pull), then boundary clamp.
Returns the new node map and the total movement. -/
noncomputable def physicsStep (minNodeDistance centerPullStrength maxDist : ℝ)
    (edges : List EdgeData) (is2DMode : Bool) (nodes : NodeMap) : NodeMap × ℝ :=
  let r := updatePositionsWithForcesEnhanced minNodeDistance centerPullStrength
    edges is2DMode nodes
  (applyBoundaries maxDist r.1, r.2)

/-- State of the `ForceSimulation` object of src/unnamed/part_002,
together with the `NodeManager` state it drives (`minNodeDistance` and
the node map) and the edge data it reads.  The `setTimeout`-based
auto-disable timer is modelled by `autoDisableTimerArmed` (a timer is
pending) and `timerEpoch` (incremented each time
`resetAutoDisableTimer` arms a fresh timer). -/
structure SimState where
  useForces : Bool
  isSimulating : Bool
  is2DMode : Bool
  dampingFactor : ℝ
  repulsionStrength : ℝ
  attractionStrength : ℝ
  levelConstraintStrength : ℝ
  centerPullStrength : ℝ
  maxDistance : ℝ
  stabilityCounter : ℕ
  autoDisableTimerArmed : Bool
  timerEpoch : ℕ
  minNodeDistance : ℝ
  nodes : NodeMap
  edges : List EdgeData

/-- How `simulateStep` schedules its next invocation: on the next
animation frame, via a delayed `setTimeout`, or not at all. -/
inductive NextCheck where
  | frame
  | delayMs (ms : ℕ)
  | stopped
deriving DecidableEq

/-- `ForceSimulation.resetAutoDisableTimer()`: clear any pending timer
and arm a fresh one. -/
def resetAutoDisableTimer (s : SimState) : SimState :=
  { s with autoDisableTimerArmed := true, timerEpoch := s.timerEpoch + 1 }

/-- Clearing the auto-disable timer (`clearTimeout` + null). -/
def clearAutoDisableTimer (s : SimState) : SimState :=
  { s with autoDisableTimerArmed := false }

/-- `ForceSimulation.start()` (state change only; the `simulateStep`
call it issues is driven separately by the tick function). -/
def startSimulation (s : SimState) : SimState :=
  if s.isSimulating then s
  else
    let s := { s with isSimulating := true, stabilityCounter := 0 }
    if s.useForces then resetAutoDisableTimer s else s

/-- `ForceSimulation.toggleForces()`. -/
def toggleForces (s : SimState) : SimState :=
  let s := { s with useForces := !s.useForces }
  if s.useForces then
    let s := if !s.isSimulating then startSimulation s else s
    resetAutoDisableTimer { s with stabilityCounter := 0 }
  else
    clearAutoDisableTimer s

/-- `ForceSimulation.disableForcesAfterStability()`: toggles forces off
only when the stability counter has exceeded 60 and forces are on. -/
def disableForcesAfterStability (s : SimState) : SimState :=
  if 60 < s.stabilityCounter ∧ s.useForces then toggleForces s else s

/-- The position-and-movement part of one `simulateStep` tick, using
the parameters the code actually reads (the stored `dampingFactor`,
`repulsionStrength`, `attractionStrength` and
`levelConstraintStrength` are never consulted; the step uses hard-coded
constants). -/
noncomputable def simulatePositions (s : SimState) : NodeMap × ℝ :=
  physicsStep s.minNodeDistance s.centerPullStrength s.maxDistance s.edges
    s.is2DMode s.nodes

/-- Movement reported by the physics pass of a tick from state `s`. -/
noncomputable def tickMovement (s : SimState) : ℝ := (simulatePositions s).2

/-- One tick of `ForceSimulation.simulateStep()`: early-out when not
simulating; frame-rate re-check when forces are off; otherwise run the
physics, then the stability bookkeeping with threshold `0.5` and
counter bound `> 60`, scheduling the next check accordingly. -/
noncomputable def simulateStep (s : SimState) : SimState × NextCheck :=
  if !s.isSimulating then (s, NextCheck.stopped)
  else if !s.useForces then (s, NextCheck.frame)
  else
    let r := simulatePositions s
    let s := { s with nodes := r.1 }
    if r.2 < 0.5 then
      let s := { s with stabilityCounter := s.stabilityCounter + 1 }
      if 60 < s.stabilityCounter then
        (disableForcesAfterStability s, NextCheck.delayMs 500)
      else (s, NextCheck.frame)
    else
      (resetAutoDisableTimer { s with stabilityCounter := 0 }, NextCheck.frame)

/-- Iterated ticks of the simulation loop. -/
noncomputable def runTicks : ℕ → SimState → SimState
  | 0, s => s
  | n + 1, s => runTicks n (simulateStep s).1

/-- `ForceSimulation.setDampingFactor(factor)`: clamps into `[0.01, 0.1]`
and stores the result; nothing else changes. -/
def setDampingFactor (factor : ℝ) (s : SimState) : SimState :=
  { s with dampingFactor := max 0.01 (min 0.1 factor) }

/-- `ForceSimulation.setRepulsionStrength(strength)`. -/
def setRepulsionStrength (strength : ℝ) (s : SimState) : SimState :=
  { s with repulsionStrength := strength }

/-- `ForceSimulation.setAttractionStrength(strength)`. -/
def setAttractionStrength (strength : ℝ) (s : SimState) : SimState :=
  { s with attractionStrength := strength }

/-- `ForceSimulation.setLevelConstraintStrength(strength)`. -/
def setLevelConstraintStrength (strength : ℝ) (s : SimState) : SimState :=
  { s with levelConstraintStrength := strength }

/-- A call to one of the four force-parameter setters. -/
inductive SetterCall where
  | damping (v : ℝ)
  | repulsion (v : ℝ)
  | attraction (v : ℝ)
  | levelConstraint (v : ℝ)

/-- Apply one setter call to the simulation state. -/
def applySetter : SetterCall → SimState → SimState
  | SetterCall.damping v, s => setDampingFactor v s
  | SetterCall.repulsion v, s => setRepulsionStrength v s
  | SetterCall.attraction v, s => setAttractionStrength v s
  | SetterCall.levelConstraint v, s => setLevelConstraintStrength v s

/-- Apply a sequence of setter calls in order. -/
def applySetters (calls : List SetterCall) (s : SimState) : SimState :=
  calls.foldl (fun s c => applySetter c s) s

/-! ## LayoutManager.switchLayout (src/unnamed/part_002) and the layout
selector change handler (src/client/js/ui/UIManager.js) -/

/-- Keys of `LayoutManager.layoutTypes`. -/
def layoutTypeKeys : List String :=
  ["FORCE_DIRECTED", "HIERARCHICAL", "RADIAL", "CONCENTRIC", "CLUSTERED"]

/-- Values of `LayoutManager.layoutTypes` (what the UI selector sends). -/
def layoutTypeValues : List String :=
  ["force", "hierarchical", "radial", "concentric", "clustered"]

/-- State of `LayoutManager` relevant to layout switching. -/
structure LayoutState where
  currentLayout : String

/-- `LayoutManager.switchLayout(layoutType)`: accept the argument when
it is a key or a value of `layoutTypes`, store it as the current layout
and report success; `applyLayout` (which only moves node positions and
never touches the force flags) is elided. -/
def switchLayout (layoutType : String) (lm : LayoutState) : LayoutState × Bool :=
  if layoutType ∈ layoutTypeKeys ∨ layoutType ∈ layoutTypeValues then
    ({ currentLayout := layoutType }, true)
  else (lm, false)

/-- The `change` handler installed by `UIManager.initLayoutControls` on
the layout selector: switch the layout, then force `useForces := false`
whenever the chosen layout is not `'force'` (the force-directed one). -/
def layoutSelectorChange (layout : String) (lm : LayoutState) (fs : SimState) :
    LayoutState × SimState :=
  let lm' := (switchLayout layout lm).1
  let fs' := if layout ≠ "force" then { fs with useForces := false } else fs
  (lm', fs')

/-! ## EdgeManager (src/client/js/graph/EdgeManager.js) and
SelectionManager (src/client/js/interaction/SelectionManager.js) -/

/-- Combined state the selection code operates on: the stored
`selectedNodeId`, the node map (with highlight states) and the edge
list. -/
structure SelState where
  selectedNodeId : Option String
  nodes : NodeMap
  edges : List EdgeData

/-- `NodeManager.updateNodeState(nodeId, state)`: look the node up; if
it is missing, warn and return; otherwise swap its material for the one
of the requested state. -/
def updateNodeState (nodeId : String) (hs : HState) (nodes : NodeMap) : NodeMap :=
  if (lookupNode nodeId nodes).isSome then
    nodes.map (fun p => if p.1 = nodeId then (p.1, { p.2 with hstate := hs }) else p)
  else nodes

/-- `NodeManager.resetNodeStates()`: every node back to `'default'`. -/
def resetNodeStates (nodes : NodeMap) : NodeMap :=
  nodes.map (fun p => (p.1, { p.2 with hstate := HState.default }))

/-- `EdgeManager.getConnectedEdges(nodeId)`: the edges touching a node
on either end. -/
def getConnectedEdges (nodeId : String) (edges : List EdgeData) : List EdgeData :=
  edges.filter (fun e => e.source = nodeId ∨ e.target = nodeId)

/-- The endpoint of `e` opposite to `nodeId`, as the highlight loop
computes it. -/
def otherEnd (nodeId : String) (e : EdgeData) : String :=
  if e.source = nodeId then e.target else e.source

/-- `EdgeManager.highlightConnections(nodeId)` restricted to node
highlight states (edge materials are rendering-only): reset all nodes,
mark `nodeId` selected, then mark the opposite endpoint of every
connected edge related. -/
def highlightConnections (nodeId : String) (nodes : NodeMap)
    (edges : List EdgeData) : NodeMap :=
  let ns := resetNodeStates nodes
  let ns := updateNodeState nodeId HState.selected ns
  (getConnectedEdges nodeId edges).foldl
    (fun ns e => updateNodeState (otherEnd nodeId e) HState.related ns) ns

/-- `SelectionManager.selectNode(nodeId)`: falsy guard (empty id), then
store the id as selected *before* checking it exists; early-return when
re-selecting the same id; when the node exists, run the highlight pass
(camera focus and sidebar updates are rendering-only and elided). -/
def selectNode (nodeId : String) (s : SelState) : SelState :=
  if nodeId = "" then s
  else
    let previousSelection := s.selectedNodeId
    let s := { s with selectedNodeId := some nodeId }
    if previousSelection = some nodeId then s
    else
      match lookupNode nodeId s.nodes with
      | none => s
      | some _ => { s with nodes := highlightConnections nodeId s.nodes s.edges }

/-- `SelectionManager.clearSelection()` restricted to node state. -/
def clearSelection (s : SelState) : SelState :=
  { s with selectedNodeId := none, nodes := resetNodeStates s.nodes }

/-- Arrow-key navigation directions. -/
inductive Direction where
  | up
  | down
  | left
  | right
deriving DecidableEq

/-- The per-direction filter of `SelectionManager.selectNextNode`:
whether `pos` lies strictly on the `dir` side of `currentPos`. -/
noncomputable def isRightDirection (dir : Direction) (pos currentPos : Vec3) :
    Bool :=
  match dir with
  | Direction.up => currentPos.y < pos.y
  | Direction.down => pos.y < currentPos.y
  | Direction.left => pos.x < currentPos.x
  | Direction.right => currentPos.x < pos.x

/-- One iteration of the candidate scan of
`SelectionManager.selectNextNode`: skip the selected node, keep nodes on
the requested side, and track the closest candidate so far
(`bestDistance` starts at `Infinity`, modelled by `none`; every real
distance compares below it). -/
noncomputable def scanStep (selId : String) (currentPos : Vec3)
    (dir : Direction) (best : Option (String × ℝ)) (p : String × NodeObj) :
    Option (String × ℝ) :=
  if p.1 = selId then best
  else if isRightDirection dir p.2.position currentPos then
    let distance := dist3 p.2.position currentPos
    match best with
    | none => some (p.1, distance)
    | some (b, bd) => if distance < bd then some (p.1, distance) else some (b, bd)
  else best

/-- The candidate scan of `SelectionManager.selectNextNode` over the
whole node map. -/
noncomputable def scanBest (selId : String) (currentPos : Vec3)
    (dir : Direction) (nodes : NodeMap) : Option (String × ℝ) :=
  nodes.foldl (scanStep selId currentPos dir) none

/-- `SelectionManager.selectNextNode(direction)`: no-op without a
selection or when the selected node is missing; otherwise select the
best match of the scan, if any (`if (bestMatch)` is falsy for an empty
id). -/
noncomputable def selectNextNode (dir : Direction) (s : SelState) : SelState :=
  match s.selectedNodeId with
  | none => s
  | some selId =>
    match lookupNode selId s.nodes with
    | none => s
    | some currentNode =>
      match scanBest selId currentNode.position dir s.nodes with
      | none => s
      | some (bestMatch, _) =>
        if bestMatch = "" then s else selectNode bestMatch s

/-- Whether `k` is connected to `id` by some edge in either direction
(the claim's notion of "related"). -/
def Connected (id k : String) (edges : List EdgeData) : Prop :=
  ∃ e ∈ edges, (e.source = id ∧ e.target = k) ∨ (e.target = id ∧ e.source = k)

instance (id k : String) (edges : List EdgeData) :
    Decidable (Connected id k edges) :=
  decidable_of_iff
    (∃ e ∈ edges, (e.source = id ∧ e.target = k) ∨ (e.target = id ∧ e.source = k))
    Iff.rfl

/-- Every entry of a node map has z-coordinate exactly 0. -/
def allZeroZ (nodes : NodeMap) : Prop :=
  ∀ p ∈ nodes, p.2.position.z = 0

/-- Every entry of a node map is within `maxDist` of the origin. -/
def allWithinBound (maxDist : ℝ) (nodes : NodeMap) : Prop :=
  ∀ p ∈ nodes, norm3 p.2.position ≤ maxDist

/-! ## General helper lemmas -/

theorem dist3_symm (p q : Vec3) : dist3 p q = dist3 q p := by
  unfold dist3
  congr 1
  ring

theorem dist3_nonneg (p q : Vec3) : 0 ≤ dist3 p q := Real.sqrt_nonneg _

theorem dist3_eval_x (a : ℝ) (h : 0 ≤ a) :
    dist3 ⟨a, 0, 0⟩ ⟨0, 0, 0⟩ = a := by
  unfold dist3
  simp only
  rw [show (a - 0) * (a - 0) + ((0 : ℝ) - 0) * (0 - 0) + ((0 : ℝ) - 0) * (0 - 0)
    = a * a by ring]
  exact Real.sqrt_mul_self h

theorem dist3_eval_y (a : ℝ) (h : 0 ≤ a) :
    dist3 ⟨0, a, 0⟩ ⟨0, 0, 0⟩ = a := by
  unfold dist3
  simp only
  rw [show ((0 : ℝ) - 0) * (0 - 0) + (a - 0) * (a - 0) + ((0 : ℝ) - 0) * (0 - 0)
    = a * a by ring]
  exact Real.sqrt_mul_self h

theorem norm3_eval_x (a : ℝ) (h : 0 ≤ a) : norm3 ⟨a, 0, 0⟩ = a := by
  unfold norm3
  simp only
  rw [show a * a + (0 : ℝ) * 0 + (0 : ℝ) * 0 = a * a by ring]
  exact Real.sqrt_mul_self h

theorem norm3_smul (c : ℝ) (v : Vec3) : norm3 (c • v) = |c| * norm3 v := by
  unfold norm3
  simp only [Vec3.smul_x, Vec3.smul_y, Vec3.smul_z]
  rw [show c * v.x * (c * v.x) + c * v.y * (c * v.y) + c * v.z * (c * v.z)
    = c ^ 2 * (v.x * v.x + v.y * v.y + v.z * v.z) by ring]
  rw [Real.sqrt_mul (sq_nonneg c), Real.sqrt_sq_eq_abs]

theorem norm3_nonneg (v : Vec3) : 0 ≤ norm3 v := Real.sqrt_nonneg _

/-! ## C1: repulsion rule -/

theorem repulsionTerm_false_eq (m : ℝ) (p q : Vec3) :
    repulsionTerm m false p q =
      if 0 < dist3 p q ∧ dist3 p q < m * 3 then
        { x := (p.x - q.x) * (if dist3 p q < m then (m * 2) / (dist3 p q * dist3 p q)
            else 30 / (dist3 p q * dist3 p q))
          y := (p.y - q.y) * (if dist3 p q < m then (m * 2) / (dist3 p q * dist3 p q)
            else 30 / (dist3 p q * dist3 p q))
          z := (p.z - q.z) * (if dist3 p q < m then (m * 2) / (dist3 p q * dist3 p q)
            else 30 / (dist3 p q * dist3 p q)) }
      else 0 := rfl

/-- C1.  In every physics step, in 3D mode, for every (unordered) pair of
nodes at Euclidean distance `d`: when `0 < d < 3 * minNodeDistance`, the
repulsion contribution accumulated on each of the two nodes is the unit
vector pointing away from the other node, scaled by the factor
`2*minNodeDistance / d²` when `d < minNodeDistance` and `30 / d²`
otherwise, and further scaled by the (positive) proportionality
constant `d`; pairs at distance exactly `0`, or at distance
`≥ 3 * minNodeDistance`, contribute no repulsion (the `d > 0` guard
also protects the division by `d²`). -/
theorem repulsion_pair_spec (m : ℝ) (p q : Vec3) :
    (0 < dist3 p q → dist3 p q < m * 3 →
      repulsionTerm m false p q =
        dist3 p q • ((if dist3 p q < m then (m * 2) / (dist3 p q * dist3 p q)
          else 30 / (dist3 p q * dist3 p q)) • unit3 p q) ∧
      repulsionTerm m false q p =
        dist3 p q • ((if dist3 p q < m then (m * 2) / (dist3 p q * dist3 p q)
          else 30 / (dist3 p q * dist3 p q)) • unit3 q p)) ∧
    (dist3 p q = 0 → repulsionTerm m false p q = 0) ∧
    (m * 3 ≤ dist3 p q → repulsionTerm m false p q = 0) := by
  have hqp : dist3 q p = dist3 p q := dist3_symm q p
  refine ⟨fun h0 h3 => ?_, fun h0 => ?_, fun h3 => ?_⟩
  · have hne : dist3 p q ≠ 0 := ne_of_gt h0
    constructor
    · rw [repulsionTerm_false_eq, if_pos ⟨h0, h3⟩]
      unfold unit3
      ext <;> simp only [Vec3.smul_x, Vec3.smul_y, Vec3.smul_z, Vec3.sub_x,
        Vec3.sub_y, Vec3.sub_z] <;>
        · split_ifs <;> field_simp <;> ring
    · rw [repulsionTerm_false_eq, hqp, if_pos ⟨h0, h3⟩]
      unfold unit3
      rw [hqp]
      ext <;> simp only [Vec3.smul_x, Vec3.smul_y, Vec3.smul_z, Vec3.sub_x,
        Vec3.sub_y, Vec3.sub_z] <;>
        · split_ifs <;> field_simp <;> ring
  · rw [repulsionTerm_false_eq, if_neg]
    rintro ⟨hlt, -⟩
    exact absurd h0 (ne_of_gt hlt)
  · rw [repulsionTerm_false_eq, if_neg]
    rintro ⟨-, hlt⟩
    exact absurd h3 (not_le.mpr hlt)

/-- Witness for C1: two nodes 30 units apart on the x-axis with the
default `minNodeDistance = 100` are in the short-range regime and repel
with factor `200 / 900`. -/
theorem repulsion_pair_spec_witness :
    0 < dist3 ⟨30, 0, 0⟩ ⟨0, 0, 0⟩ ∧ dist3 ⟨30, 0, 0⟩ ⟨0, 0, 0⟩ < 100 * 3 ∧
    repulsionTerm 100 false ⟨30, 0, 0⟩ ⟨0, 0, 0⟩ =
      dist3 ⟨30, 0, 0⟩ ⟨0, 0, 0⟩ •
        ((if dist3 ⟨30, 0, 0⟩ ⟨0, 0, 0⟩ < 100 then
            (100 * 2) / (dist3 ⟨30, 0, 0⟩ ⟨0, 0, 0⟩ * dist3 ⟨30, 0, 0⟩ ⟨0, 0, 0⟩)
          else 30 / (dist3 ⟨30, 0, 0⟩ ⟨0, 0, 0⟩ * dist3 ⟨30, 0, 0⟩ ⟨0, 0, 0⟩)) •
          unit3 ⟨30, 0, 0⟩ ⟨0, 0, 0⟩) := by
  have hd : dist3 (⟨30, 0, 0⟩ : Vec3) ⟨0, 0, 0⟩ = 30 :=
    dist3_eval_x 30 (by norm_num)
  have h0 : 0 < dist3 (⟨30, 0, 0⟩ : Vec3) ⟨0, 0, 0⟩ := by rw [hd]; norm_num
  have h3 : dist3 (⟨30, 0, 0⟩ : Vec3) ⟨0, 0, 0⟩ < 100 * 3 := by rw [hd]; norm_num
  exact ⟨h0, h3, ((repulsion_pair_spec 100 ⟨30, 0, 0⟩ ⟨0, 0, 0⟩).1 h0 h3).1⟩

/-! ## C2: attraction rule -/

theorem attractionTerm_false_eq (cnt : ℕ) (p q : Vec3) :
    attractionTerm false cnt p q =
      if 20 < dist3 q p then
        { x := (q.x - p.x) * (dist3 q p *
            (if cnt = 0 then 0.03 else (cnt : ℝ) * 0.01))
          y := (q.y - p.y) * (dist3 q p *
            (if cnt = 0 then 0.03 else (cnt : ℝ) * 0.01))
          z := (q.z - p.z) * (dist3 q p *
            (if cnt = 0 then 0.03 else (cnt : ℝ) * 0.01)) }
      else 0 := rfl

/-- C2.  In every physics step, a `Relation` touching node `i` whose
other endpoint exists pulls `i` toward that endpoint with factor
`distance * connectionStrength`, where `connectionStrength` is
`0.01 * connections` with the falsy default `0.03` at connection count
`0`, exactly when the distance exceeds `20`; at distance `≤ 20` the edge
contributes nothing, and inside the per-node edge loop an edge whose
other endpoint is missing from the node map is skipped without error. -/
theorem attraction_spec (cnt : ℕ) (p q : Vec3) :
    (20 < dist3 q p →
      attractionTerm false cnt p q =
        (dist3 q p * (if cnt = 0 then 0.03 else (cnt : ℝ) * 0.01)) • (q - p)) ∧
    (dist3 q p ≤ 20 → attractionTerm false cnt p q = 0) ∧
    (∀ (is2DMode : Bool) (id : String) (obj : NodeObj) (e : EdgeData)
        (pre post : List EdgeData) (nodes : NodeMap),
      (e.source = id ∨ e.target = id) →
      lookupNode (if e.source = id then e.target else e.source) nodes = none →
      attractionForce is2DMode id obj (pre ++ e :: post) nodes =
        attractionForce is2DMode id obj (pre ++ post) nodes) := by
  refine ⟨fun h => ?_, fun h => ?_, ?_⟩
  · rw [attractionTerm_false_eq, if_pos h]
    ext <;> simp only [Vec3.smul_x, Vec3.smul_y, Vec3.smul_z, Vec3.sub_x,
      Vec3.sub_y, Vec3.sub_z] <;> ring
  · rw [attractionTerm_false_eq, if_neg (not_lt.mpr h)]
  · intro is2DMode id obj e pre post nodes htouch hmiss
    unfold attractionForce
    rw [List.foldl_append, List.foldl_append, List.foldl_cons]
    congr 1
    simp only [if_pos htouch, hmiss]

/-- Witness for C2: a node with connection count 0 at the origin,
pulled by an edge endpoint 30 units away (distance above the rest
length 20), and the dangling-edge skip at a concrete edge. -/
theorem attraction_spec_witness :
    (20 < dist3 ⟨30, 0, 0⟩ ⟨0, 0, 0⟩ ∧
      attractionTerm false 0 ⟨0, 0, 0⟩ ⟨30, 0, 0⟩ =
        (dist3 ⟨30, 0, 0⟩ ⟨0, 0, 0⟩ * (if (0 : ℕ) = 0 then 0.03 else ((0 : ℕ) : ℝ) * 0.01)) •
          ((⟨30, 0, 0⟩ : Vec3) - ⟨0, 0, 0⟩)) ∧
    attractionForce false "a"
        { position := 0, connections := 0, level := 1, hstate := HState.default }
        ([] ++ { source := "a", target := "ghost", type := "proves" } :: []) [] =
      attractionForce false "a"
        { position := 0, connections := 0, level := 1, hstate := HState.default }
        ([] ++ []) [] := by
  have hd : dist3 (⟨30, 0, 0⟩ : Vec3) ⟨0, 0, 0⟩ = 30 :=
    dist3_eval_x 30 (by norm_num)
  have h20 : 20 < dist3 (⟨30, 0, 0⟩ : Vec3) ⟨0, 0, 0⟩ := by rw [hd]; norm_num
  refine ⟨⟨h20, (attraction_spec 0 ⟨0, 0, 0⟩ ⟨30, 0, 0⟩).1 h20⟩, ?_⟩
  exact (attraction_spec 0 0 0).2.2 false "a"
    { position := 0, connections := 0, level := 1, hstate := HState.default }
    { source := "a", target := "ghost", type := "proves" } [] [] []
    (Or.inl rfl) rfl

/-! ## C3: boundary containment -/

/-- C3.  For a nonnegative `maxDistance`, the boundary clamp leaves a
node at or inside the sphere of radius `maxDistance` unchanged, radially
rescales a node found strictly outside back onto that sphere (its new
position is `maxDistance / dist` times the old one and its new norm is
exactly `maxDistance`), and therefore after `applyBoundaries` every
node's Euclidean distance from the origin is at most `maxDistance`. -/
theorem boundary_clamp_spec (maxDist : ℝ) (hm : 0 ≤ maxDist) (n : NodeObj)
    (nodes : NodeMap) :
    (norm3 n.position ≤ maxDist → clampNode maxDist n = n) ∧
    (maxDist < norm3 n.position →
      (clampNode maxDist n).position = (maxDist / norm3 n.position) • n.position ∧
      norm3 (clampNode maxDist n).position = maxDist) ∧
    norm3 (clampNode maxDist n).position ≤ maxDist ∧
    allWithinBound maxDist (applyBoundaries maxDist nodes) := by
  have key : ∀ k : NodeObj, (norm3 k.position ≤ maxDist → clampNode maxDist k = k) ∧
      (maxDist < norm3 k.position →
        (clampNode maxDist k).position = (maxDist / norm3 k.position) • k.position ∧
        norm3 (clampNode maxDist k).position = maxDist) := by
    intro k
    constructor
    · intro h
      unfold clampNode
      rw [if_neg (not_lt.mpr h)]
    · intro h
      have hpos : 0 < norm3 k.position := lt_of_le_of_lt hm h
      have hne : norm3 k.position ≠ 0 := ne_of_gt hpos
      have heq : (clampNode maxDist k).position =
          (maxDist / norm3 k.position) • k.position := by
        unfold clampNode
        rw [if_pos h]
        ext <;> simp only [Vec3.smul_x, Vec3.smul_y, Vec3.smul_z] <;> ring
      refine ⟨heq, ?_⟩
      rw [heq, norm3_smul, abs_of_nonneg (div_nonneg hm (le_of_lt hpos))]
      field_simp
  have bound : ∀ k : NodeObj, norm3 (clampNode maxDist k).position ≤ maxDist := by
    intro k
    rcases le_or_lt (norm3 k.position) maxDist with h | h
    · rw [(key k).1 h]
      exact h
    · exact le_of_eq ((key k).2 h).2
  refine ⟨(key n).1, (key n).2, bound n, ?_⟩
  intro p hp
  unfold applyBoundaries at hp
  obtain ⟨q, -, rfl⟩ := List.mem_map.mp hp
  exact bound q.2

/-- Witness for C3: with the default `maxDistance = 500`, a node at
`(900, 0, 0)` is strictly outside and is rescaled onto the radius-500
sphere. -/
theorem boundary_clamp_spec_witness :
    (0 : ℝ) ≤ 500 ∧
    500 < norm3 (⟨900, 0, 0⟩ : Vec3) ∧
    norm3 (clampNode 500
      { position := ⟨900, 0, 0⟩, connections := 0, level := 1,
        hstate := HState.default }).position = 500 := by
  have hn : norm3 (⟨900, 0, 0⟩ : Vec3) = 900 := norm3_eval_x 900 (by norm_num)
  have h : (500 : ℝ) < norm3 (⟨900, 0, 0⟩ : Vec3) := by rw [hn]; norm_num
  exact ⟨by norm_num, h,
    ((boundary_clamp_spec 500 (by norm_num)
      { position := ⟨900, 0, 0⟩, connections := 0, level := 1,
        hstate := HState.default } []).2.1 h).2⟩

/-! ## C4: 2D pinning -/

/-- Iterated full per-tick position updates (`simulateStep`'s physics,
center pull and boundary clamp), `n` times. -/
noncomputable def physicsStepN (minNodeDistance centerPullStrength maxDist : ℝ)
    (edges : List EdgeData) (is2DMode : Bool) : ℕ → NodeMap → NodeMap
  | 0, nodes => nodes
  | n + 1, nodes =>
    physicsStepN minNodeDistance centerPullStrength maxDist edges is2DMode n
      (physicsStep minNodeDistance centerPullStrength maxDist edges is2DMode nodes).1

theorem updateNodePhysics_z_2d (m : ℝ) (edges : List EdgeData) (nodes : NodeMap)
    (id : String) (obj : NodeObj) :
    ((updateNodePhysics m true edges nodes id obj).1).position.z = 0 := rfl

theorem setNode_mem (id : String) (obj : NodeObj) :
    ∀ l : NodeMap, ∀ p ∈ setNode id obj l, p.2 = obj ∨ (p ∈ l ∧ p.1 ≠ id) := by
  intro l
  induction l with
  | nil => intro p hp; cases hp
  | cons hd tl ih =>
    intro p hp
    unfold setNode at hp
    by_cases h : hd.1 = id
    · rw [if_pos h] at hp
      rcases List.mem_cons.mp hp with h1 | h1
      · left; rw [h1]
      · rcases ih p h1 with h2 | h2
        · exact Or.inl h2
        · exact Or.inr ⟨List.mem_cons_of_mem _ h2.1, h2.2⟩
    · rw [if_neg h] at hp
      rcases List.mem_cons.mp hp with h1 | h1
      · right
        constructor
        · rw [h1]; exact List.mem_cons_self _ _
        · rw [h1]; exact h
      · rcases ih p h1 with h2 | h2
        · exact Or.inl h2
        · exact Or.inr ⟨List.mem_cons_of_mem _ h2.1, h2.2⟩

theorem lookupNode_none_forall (id : String) :
    ∀ l : NodeMap, lookupNode id l = none → ∀ p ∈ l, p.1 ≠ id := by
  intro l
  induction l with
  | nil => intro _ p hp; cases hp
  | cons hd tl ih =>
    intro h p hp
    unfold lookupNode at h
    by_cases hk : hd.1 = id
    · rw [if_pos hk] at h; cases h
    · rw [if_neg hk] at h
      rcases List.mem_cons.mp hp with h1 | h1
      · rw [h1]; exact hk
      · exact ih h p h1

theorem physicsFold_allZeroZ (m : ℝ) (edges : List EdgeData) :
    ∀ (ids : List String) (acc : NodeMap × ℝ),
      (∀ p ∈ acc.1, p.1 ∈ ids ∨ p.2.position.z = 0) →
      ∀ p ∈ (ids.foldl (physicsFoldStep m true edges) acc).1, p.2.position.z = 0 := by
  intro ids
  induction ids with
  | nil =>
    intro acc h p hp
    rcases h p hp with h1 | h1
    · cases h1
    · exact h1
  | cons id ids ih =>
    intro acc h
    rw [List.foldl_cons]
    apply ih
    intro p hp
    unfold physicsFoldStep at hp
    cases hlook : lookupNode id acc.1 with
    | none =>
      rw [hlook] at hp
      rcases h p hp with h1 | h1
      · rcases List.mem_cons.mp h1 with h2 | h2
        · exact absurd h2 (lookupNode_none_forall id acc.1 hlook p hp)
        · exact Or.inl h2
      · exact Or.inr h1
    | some obj =>
      rw [hlook] at hp
      rcases setNode_mem id _ acc.1 p hp with h1 | h1
      · right
        rw [h1]
        exact updateNodePhysics_z_2d m edges acc.1 id obj
      · rcases h p h1.1 with h2 | h2
        · rcases List.mem_cons.mp h2 with h3 | h3
          · exact absurd h3 h1.2
          · exact Or.inl h3
        · exact Or.inr h2

theorem centerPullNode_z_2d (c : ℝ) (n : NodeObj) :
    (centerPullNode c true n).position.z = n.position.z := rfl

theorem clampNode_z_zero (maxDist : ℝ) (n : NodeObj) (h : n.position.z = 0) :
    (clampNode maxDist n).position.z = 0 := by
  simp only [clampNode]
  split_ifs
  · simp [h]
  · exact h

theorem physicsStep_allZeroZ (m c maxD : ℝ) (edges : List EdgeData)
    (nodes : NodeMap) :
    allZeroZ (physicsStep m c maxD edges true nodes).1 := by
  intro p hp
  unfold physicsStep applyBoundaries at hp
  obtain ⟨q, hq, rfl⟩ := List.mem_map.mp hp
  unfold updatePositionsWithForcesEnhanced at hq
  obtain ⟨r, hr, rfl⟩ := List.mem_map.mp hq
  apply clampNode_z_zero
  rw [centerPullNode_z_2d]
  revert hr
  unfold updatePositionsWithForces
  apply physicsFold_allZeroZ
  intro p hp
  exact Or.inl (List.mem_map_of_mem Prod.fst hp)

/-- C4.  With 2D mode enabled, after at least one full physics step
(forces, center pull and boundary clamp included), every node's
z-coordinate is exactly 0, whatever z-forces the pass accumulated and
whatever the starting positions were. -/
theorem two_d_pinning (m c maxD : ℝ) (edges : List EdgeData) (nodes : NodeMap)
    (n : ℕ) (hn : 1 ≤ n) :
    allZeroZ (physicsStepN m c maxD edges true n nodes) := by
  obtain ⟨k, rfl⟩ : ∃ k, n = k + 1 := ⟨n - 1, by omega⟩
  clear hn
  induction k generalizing nodes with
  | zero => exact physicsStep_allZeroZ m c maxD edges nodes
  | succ k ih =>
    show allZeroZ (physicsStepN m c maxD edges true (k + 1) _)
    exact ih _

/-- Witness for C4: one 2D step on a single node that starts with a
nonzero z-coordinate. -/
theorem two_d_pinning_witness :
    1 ≤ 1 ∧
    allZeroZ (physicsStepN 100 0.001 500 [] true 1
      [("a", { position := ⟨0, 0, 5⟩
               connections := 0
               level := 1
               hstate := HState.default })]) :=
  ⟨le_refl 1, two_d_pinning 100 0.001 500 [] _ 1 (le_refl 1)⟩

/-! ## C5: stability auto-disable -/

/-- A running simulation state with forces on, stability counter `c`,
and no nodes or edges (so every tick reports total movement `0`). -/
def emptySimState (c : ℕ) : SimState where
  useForces := true
  isSimulating := true
  is2DMode := false
  dampingFactor := 0.03
  repulsionStrength := 30
  attractionStrength := 0.01
  levelConstraintStrength := 0.01
  centerPullStrength := 0.001
  maxDistance := 500
  stabilityCounter := c
  autoDisableTimerArmed := true
  timerEpoch := 0
  minNodeDistance := 100
  nodes := []
  edges := []

theorem runTicks_succ_outer (n : ℕ) :
    ∀ s : SimState, runTicks (n + 1) s = (simulateStep (runTicks n s)).1 := by
  induction n with
  | zero => intro s; rfl
  | succ n ih =>
    intro s
    show runTicks (n + 1) (simulateStep s).1 = _
    rw [ih]
    rfl

theorem simulateStep_low (s : SimState) (h1 : s.isSimulating = true)
    (h2 : s.useForces = true) (hc : s.stabilityCounter + 1 ≤ 60)
    (h0 : tickMovement s < 0.5) :
    simulateStep s = ({ s with nodes := (simulatePositions s).1, stabilityCounter := s.stabilityCounter + 1 }, NextCheck.frame) := by
  have h0' : (simulatePositions s).2 < 0.5 := h0
  have hcc : ¬ 60 < s.stabilityCounter + 1 := by omega
  simp only [simulateStep, h1, h2, Bool.not_true, Bool.false_eq_true, if_false,
    if_pos h0', if_neg hcc]

theorem simulateStep_reset (s : SimState) (h1 : s.isSimulating = true)
    (h2 : s.useForces = true) (hmov : 0.5 ≤ tickMovement s) :
    simulateStep s = (resetAutoDisableTimer { s with nodes := (simulatePositions s).1, stabilityCounter := 0 }, NextCheck.frame) := by
  have h0' : ¬ (simulatePositions s).2 < 0.5 := not_lt.mpr hmov
  simp only [simulateStep, h1, h2, Bool.not_true, Bool.false_eq_true, if_false,
    if_neg h0']

theorem simulateStep_disable (s : SimState) (h1 : s.isSimulating = true)
    (h2 : s.useForces = true) (hc : s.stabilityCounter = 60)
    (h0 : tickMovement s < 0.5) :
    (simulateStep s).1.useForces = false ∧
    (simulateStep s).2 = NextCheck.delayMs 500 := by
  have h0' : (simulatePositions s).2 < 0.5 := h0
  have hcc : 60 < s.stabilityCounter + 1 := by omega
  have hmain : simulateStep s = (disableForcesAfterStability { s with nodes := (simulatePositions s).1, stabilityCounter := s.stabilityCounter + 1 }, NextCheck.delayMs 500) := by
    simp only [simulateStep, h1, h2, Bool.not_true, Bool.false_eq_true, if_false,
      if_pos h0', if_pos hcc]
  rw [hmain]
  refine ⟨?_, rfl⟩
  show (disableForcesAfterStability _).useForces = false
  unfold disableForcesAfterStability
  rw [if_pos]
  · unfold toggleForces
    simp [h2, clearAutoDisableTimer]
  · exact ⟨hcc, h2⟩

theorem low_run_invariant :
    ∀ (n : ℕ) (s : SimState), s.isSimulating = true → s.useForces = true →
      n + s.stabilityCounter ≤ 60 →
      (∀ k < n, tickMovement (runTicks k s) < 0.5) →
      (runTicks n s).isSimulating = true ∧ (runTicks n s).useForces = true ∧
      (runTicks n s).stabilityCounter = s.stabilityCounter + n := by
  intro n
  induction n with
  | zero => intro s h1 h2 _ _; exact ⟨h1, h2, rfl⟩
  | succ n ih =>
    intro s h1 h2 hle hlow
    have h0 : tickMovement s < 0.5 := hlow 0 (Nat.succ_pos n)
    have hstep := simulateStep_low s h1 h2 (by omega) h0
    have hrw : ∀ k, runTicks (k + 1) s = runTicks k { s with nodes := (simulatePositions s).1, stabilityCounter := s.stabilityCounter + 1 } := by
      intro k
      show runTicks k (simulateStep s).1 = _
      rw [hstep]
    have hInv := ih { s with nodes := (simulatePositions s).1, stabilityCounter := s.stabilityCounter + 1 }
      h1 h2 (by show n + (s.stabilityCounter + 1) ≤ 60; omega)
      (fun k hk => by rw [← hrw k]; exact hlow (k + 1) (by omega))
    rw [hrw n]
    refine ⟨hInv.1, hInv.2.1, ?_⟩
    rw [hInv.2.2]
    show s.stabilityCounter + 1 + n = s.stabilityCounter + (n + 1)
    omega

theorem simulateStep_empty (c : ℕ) (hc : c + 1 ≤ 60) :
    simulateStep (emptySimState c) = (emptySimState (c + 1), NextCheck.frame) := by
  have h := simulateStep_low (emptySimState c) rfl rfl hc
    (show (0 : ℝ) < 0.5 by norm_num)
  rw [h]
  rfl

theorem runTicks_empty : ∀ (k c : ℕ), c + k ≤ 60 →
    runTicks k (emptySimState c) = emptySimState (c + k) := by
  intro k
  induction k with
  | zero => intro c _; rfl
  | succ k ih =>
    intro c hc
    show runTicks k (simulateStep (emptySimState c)).1 = _
    rw [simulateStep_empty c (by omega), ih (c + 1) (by omega)]
    congr 1
    omega

/-- C5 counterexample: from a fresh running state with the stability
counter at 0 and no nodes (so every tick's total movement is 0, far
below the 0.5 threshold), after 60 consecutive low-movement ticks the
forces are still enabled: the auto-disable condition is
`stabilityCounter > 60`, which 60 consecutive low ticks do not reach. -/
theorem stability_sixty_ticks_counterexample :
    (∀ k < 60, tickMovement (runTicks k (emptySimState 0)) < 0.5) ∧
    (runTicks 60 (emptySimState 0)).useForces = true ∧
    (runTicks 60 (emptySimState 0)).stabilityCounter = 60 := by
  have hrun : ∀ k, k ≤ 60 → runTicks k (emptySimState 0) = emptySimState k := by
    intro k hk
    have h := runTicks_empty k 0 (by omega)
    rwa [Nat.zero_add] at h
  refine ⟨fun k hk => ?_, ?_, ?_⟩
  · rw [hrun k (by omega)]
    show (0 : ℝ) < 0.5
    norm_num
  · rw [hrun 60 le_rfl]
    rfl
  · rw [hrun 60 le_rfl]
    rfl

/-- C5 (amended).  The scheduler counts consecutive ticks whose total
movement is below 0.5; the auto-transition to the paused state (forces
disabled) fires on the tick that pushes the counter past 60 — that is,
after 61 consecutive low-movement ticks, not 60 (after 60 such ticks
the forces are still enabled) — and that tick schedules the next check
500 ms later instead of on the next frame; any tick with total movement
at least 0.5 resets the stability counter to 0 and re-arms a fresh
inactivity timer. -/
theorem stability_autodisable_spec (s : SimState) (h1 : s.isSimulating = true)
    (h2 : s.useForces = true) (h3 : s.stabilityCounter = 0)
    (hlow : ∀ k < 61, tickMovement (runTicks k s) < 0.5) :
    (runTicks 60 s).useForces = true ∧
    (runTicks 61 s).useForces = false ∧
    (simulateStep (runTicks 60 s)).2 = NextCheck.delayMs 500 ∧
    (∀ t : SimState, t.isSimulating = true → t.useForces = true →
      0.5 ≤ tickMovement t →
      (simulateStep t).1.stabilityCounter = 0 ∧
      (simulateStep t).1.timerEpoch = t.timerEpoch + 1 ∧
      (simulateStep t).1.autoDisableTimerArmed = true) := by
  have inv := low_run_invariant 60 s h1 h2 (by omega) (fun k hk => hlow k (by omega))
  have hc60 : (runTicks 60 s).stabilityCounter = 60 := by rw [inv.2.2, h3]
  have hd := simulateStep_disable (runTicks 60 s) inv.1 inv.2.1 hc60
    (hlow 60 (by omega))
  refine ⟨inv.2.1, ?_, hd.2, ?_⟩
  · rw [runTicks_succ_outer 60 s]
    exact hd.1
  · intro t t1 t2 tm
    rw [simulateStep_reset t t1 t2 tm]
    exact ⟨rfl, rfl, rfl⟩

/-- Witness for C5: the concrete empty running state, driven for 61
low-movement ticks, ends with forces disabled. -/
theorem stability_autodisable_spec_witness :
    (emptySimState 0).stabilityCounter = 0 ∧
    (runTicks 61 (emptySimState 0)).useForces = false := by
  have hlow : ∀ k < 61, tickMovement (runTicks k (emptySimState 0)) < 0.5 := by
    intro k hk
    have h := runTicks_empty k 0 (by omega)
    rw [Nat.zero_add] at h
    rw [h]
    show (0 : ℝ) < 0.5
    norm_num
  exact ⟨rfl, (stability_autodisable_spec (emptySimState 0) rfl rfl rfl hlow).2.1⟩

/-! ## C6: layout switching disables forces -/

/-- C6.  Performing the user-facing switch-layout operation (the layout
selector's change handler, which calls `LayoutManager.switchLayout` and
then turns the force flag off for non-force layouts) with any target
other than the force-directed layout leaves `useForces = false`, so the
static layout is the only active positioning authority; switching to
the force-directed layout leaves the force-simulation state entirely
unchanged, so the force simulation remains the positioning authority.
`LayoutManager.switchLayout` itself records any valid target as the
current layout. -/
theorem layout_switch_spec (lm : LayoutState) (fs : SimState) :
    (∀ layout : String, layout ≠ "force" →
      ((layoutSelectorChange layout lm fs).2).useForces = false) ∧
    ((layoutSelectorChange "force" lm fs).2 = fs) ∧
    (∀ layout ∈ layoutTypeValues,
      ((switchLayout layout lm).1).currentLayout = layout) := by
  refine ⟨fun layout h => ?_, ?_, fun layout h => ?_⟩
  · unfold layoutSelectorChange
    rw [if_pos h]
  · unfold layoutSelectorChange
    rw [if_neg (by simp)]
  · unfold switchLayout
    rw [if_pos (Or.inr h)]

/-- Witness for C6: choosing the hierarchical layout in the selector
turns forces off. -/
theorem layout_switch_spec_witness :
    "hierarchical" ≠ "force" ∧
    ((layoutSelectorChange "hierarchical" { currentLayout := "force" }
      (emptySimState 0)).2).useForces = false := by
  refine ⟨by decide, ?_⟩
  exact (layout_switch_spec { currentLayout := "force" } (emptySimState 0)).1
    "hierarchical" (by decide)

/-! ## C7: selection highlight exclusivity -/

theorem lookupNode_isSome (id : String) :
    ∀ l : NodeMap, (lookupNode id l).isSome = true ↔ id ∈ l.map Prod.fst := by
  intro l
  induction l with
  | nil => simp [lookupNode]
  | cons hd tl ih =>
    unfold lookupNode
    by_cases h : hd.1 = id
    · rw [if_pos h]
      simp [h.symm]
    · rw [if_neg h]
      simp only [List.map_cons, List.mem_cons]
      rw [ih]
      constructor
      · exact Or.inr
      · rintro (h1 | h1)
        · exact absurd h1.symm h
        · exact h1

theorem map_if_id (id : String) (hs : HState) :
    ∀ l : NodeMap, (∀ p ∈ l, p.1 ≠ id) →
      l.map (fun p => if p.1 = id then (p.1, { p.2 with hstate := hs }) else p) = l := by
  intro l
  induction l with
  | nil => intro _; rfl
  | cons hd tl ih =>
    intro h
    simp only [List.map_cons]
    rw [if_neg (h hd (List.mem_cons_self hd tl)),
      ih (fun p hp => h p (List.mem_cons_of_mem hd hp))]

theorem updateNodeState_eq_map (id : String) (hs : HState) (l : NodeMap) :
    updateNodeState id hs l =
      l.map (fun p => if p.1 = id then (p.1, { p.2 with hstate := hs }) else p) := by
  unfold updateNodeState
  split_ifs with h
  · rfl
  · have hn : lookupNode id l = none := by
      cases hl : lookupNode id l
      · rfl
      · rw [hl] at h
        simp at h
    exact (map_if_id id hs l (lookupNode_none_forall id l hn)).symm

theorem relFold_eq (id : String) :
    ∀ (es : List EdgeData) (ns : NodeMap),
      es.foldl (fun ns e => updateNodeState (otherEnd id e) HState.related ns) ns =
        ns.map (fun p => if p.1 ∈ es.map (otherEnd id) then
          (p.1, { p.2 with hstate := HState.related }) else p) := by
  intro es
  induction es with
  | nil =>
    intro ns
    simp
  | cons e es ih =>
    intro ns
    rw [List.foldl_cons, ih, updateNodeState_eq_map, List.map_map]
    have hfun : ∀ p : String × NodeObj,
        ((fun p => if p.1 ∈ es.map (otherEnd id) then
            (p.1, { p.2 with hstate := HState.related }) else p) ∘
          (fun p => if p.1 = otherEnd id e then
            (p.1, { p.2 with hstate := HState.related }) else p)) p =
        (fun p => if p.1 ∈ (e :: es).map (otherEnd id) then
          (p.1, { p.2 with hstate := HState.related }) else p) p := by
      intro p
      dsimp only [Function.comp_apply]
      by_cases h1 : p.1 = otherEnd id e
      · have hmem : p.1 ∈ (e :: es).map (otherEnd id) := by
          rw [List.map_cons]
          exact List.mem_cons.mpr (Or.inl h1)
        rw [if_pos h1]
        dsimp only
        by_cases h2 : p.1 ∈ es.map (otherEnd id)
        · rw [if_pos h2, if_pos hmem]
        · rw [if_neg h2, if_pos hmem]
      · rw [if_neg h1]
        by_cases h2 : p.1 ∈ es.map (otherEnd id)
        · have hmem : p.1 ∈ (e :: es).map (otherEnd id) := by
            rw [List.map_cons]
            exact List.mem_cons.mpr (Or.inr h2)
          rw [if_pos h2, if_pos hmem]
        · have hmem : p.1 ∉ (e :: es).map (otherEnd id) := by
            rw [List.map_cons]
            intro hx
            rcases List.mem_cons.mp hx with h | h
            · exact h1 h
            · exact h2 h
          rw [if_neg h2, if_neg hmem]
    rw [funext hfun]

theorem highlightConnections_eq (id : String) (ns : NodeMap) (es : List EdgeData) :
    highlightConnections id ns es =
      ns.map (fun p => (p.1, { p.2 with hstate :=
        if p.1 ∈ (getConnectedEdges id es).map (otherEnd id) then HState.related
        else if p.1 = id then HState.selected
        else HState.default })) := by
  simp only [highlightConnections, resetNodeStates]
  rw [updateNodeState_eq_map, relFold_eq, List.map_map, List.map_map]
  have hfun : ∀ p : String × NodeObj,
      (((fun p => if p.1 ∈ (getConnectedEdges id es).map (otherEnd id) then
          (p.1, { p.2 with hstate := HState.related }) else p) ∘
        (fun p => if p.1 = id then
          (p.1, { p.2 with hstate := HState.selected }) else p)) ∘
          (fun p => (p.1, { p.2 with hstate := HState.default }))) p =
      (fun p => (p.1, { p.2 with hstate :=
        if p.1 ∈ (getConnectedEdges id es).map (otherEnd id) then HState.related
        else if p.1 = id then HState.selected
        else HState.default })) p := by
    intro p
    dsimp only [Function.comp_apply]
    by_cases h1 : p.1 = id
    · rw [if_pos h1]
      dsimp only
      by_cases h2 : p.1 ∈ (getConnectedEdges id es).map (otherEnd id)
      · rw [if_pos h2, if_pos h2]
      · rw [if_neg h2, if_neg h2, if_pos h1]
    · rw [if_neg h1]
      by_cases h2 : p.1 ∈ (getConnectedEdges id es).map (otherEnd id)
      · rw [if_pos h2, if_pos h2]
      · rw [if_neg h2, if_neg h2, if_neg h1]
  rw [funext hfun]

/-- The highlight state that the `highlightConnections` pass assigns to
the node keyed `k` when `id` is being selected. -/
def highlightFor (id : String) (edges : List EdgeData) (k : String) : HState :=
  if k ∈ (getConnectedEdges id edges).map (otherEnd id) then HState.related
  else if k = id then HState.selected
  else HState.default

theorem highlightConnections_eq' (id : String) (ns : NodeMap)
    (es : List EdgeData) :
    highlightConnections id ns es =
      ns.map (fun p => (p.1, { p.2 with hstate := highlightFor id es p.1 })) := by
  rw [highlightConnections_eq]
  rfl

theorem mem_otherEnds_iff (id k : String) (es : List EdgeData) :
    k ∈ (getConnectedEdges id es).map (otherEnd id) ↔ Connected id k es := by
  unfold getConnectedEdges otherEnd Connected
  simp only [List.mem_map, List.mem_filter, decide_eq_true_eq]
  constructor
  · rintro ⟨e, ⟨he, hcond⟩, hk⟩
    refine ⟨e, he, ?_⟩
    by_cases hs : e.source = id
    · left
      exact ⟨hs, by rwa [if_pos hs] at hk⟩
    · rcases hcond with h | h
      · exact absurd h hs
      · right
        exact ⟨h, by rwa [if_neg hs] at hk⟩
  · rintro ⟨e, he, h | h⟩
    · exact ⟨e, ⟨he, Or.inl h.1⟩, by rw [if_pos h.1]; exact h.2⟩
    · refine ⟨e, ⟨he, Or.inr h.1⟩, ?_⟩
      by_cases hs : e.source = id
      · rw [if_pos hs]
        have hk : k = id := h.2.symm.trans hs
        exact h.1.trans hk.symm
      · rw [if_neg hs]
        exact h.2

theorem filter_key_singleton (id : String) :
    ∀ l : NodeMap, (l.map Prod.fst).Nodup → id ∈ l.map Prod.fst →
      (l.filter (fun p => p.1 = id)).map Prod.fst = [id] := by
  intro l
  induction l with
  | nil => intro _ h; cases h
  | cons hd tl ih =>
    intro hnd hmem
    simp only [List.map_cons, List.nodup_cons] at hnd
    by_cases h : hd.1 = id
    · have htl : tl.filter (fun p => p.1 = id) = [] := by
        rw [List.filter_eq_nil_iff]
        intro p hp
        simp only [decide_eq_true_eq]
        intro hpid
        exact hnd.1 (h ▸ hpid ▸ List.mem_map_of_mem Prod.fst hp)
      rw [List.filter_cons_of_pos (by simp [h]), htl]
      simp [h]
    · rw [List.filter_cons_of_neg (by simp [h])]
      apply ih hnd.2
      rcases List.mem_cons.mp hmem with h1 | h1
      · exact absurd h1.symm h
      · exact h1

/-- A plain default-state node used in concrete selection scenarios. -/
def plainNode : NodeObj where
  position := 0
  connections := 0
  level := 1
  hstate := HState.default

/-- Selection state with one node `"a"` and one self-loop relation on
`"a"`, nothing selected. -/
def selfLoopSelState : SelState where
  selectedNodeId := none
  nodes := [("a", plainNode)]
  edges := [{ source := "a", target := "a", type := "proves" }]

/-- Selection state with one node `"a"` (highlight `'default'`) whose id
is already stored as selected. -/
def staleSelState : SelState where
  selectedNodeId := some "a"
  nodes := [("a", plainNode)]
  edges := []

/-- C7 counterexample.  Two concrete refutations of the claim as
stated: (1) with a self-loop relation on `"a"`, `select("a")` ends with
zero entities in the `'selected'` state (the related-highlight loop
overwrites the selected node), so "exactly one entity is selected"
fails; (2) when `"a"` is already the stored selection, `select("a")`
returns before the highlight pass, so a stale `'default'` highlight is
left in place and again no entity is in the `'selected'` state. -/
theorem select_highlight_counterexample :
    ((selectNode "a" selfLoopSelState).nodes.filter
      (fun p => p.2.hstate = HState.selected)) = [] ∧
    selectNode "a" staleSelState = staleSelState := by
  constructor
  · rfl
  · rfl

/-- C7 (amended).  After `select(id)` completes for an id present in
the entity set, provided `id` was not already the stored selection and
no Relation has `id` as both source and target: the stored selection is
`id`; every entity's highlight state is `'selected'` if it is the entity
`id`, `'related'` if it is connected to `id` by some Relation in either
direction, and `'default'` otherwise; in particular exactly one entity
(the one keyed `id`) is in the `'selected'` state. -/
theorem select_highlight_spec (s : SelState) (id : String) (h0 : id ≠ "")
    (h1 : s.selectedNodeId ≠ some id) (h2 : id ∈ s.nodes.map Prod.fst)
    (h3 : ∀ e ∈ s.edges, ¬(e.source = id ∧ e.target = id))
    (h4 : (s.nodes.map Prod.fst).Nodup) :
    (selectNode id s).selectedNodeId = some id ∧
    (∀ p ∈ (selectNode id s).nodes,
      p.2.hstate = if p.1 = id then HState.selected
        else if Connected id p.1 s.edges then HState.related
        else HState.default) ∧
    ((selectNode id s).nodes.filter
      (fun p => p.2.hstate = HState.selected)).map Prod.fst = [id] := by
  obtain ⟨obj, hobj⟩ := Option.isSome_iff_exists.mp
    ((lookupNode_isSome id s.nodes).mpr h2)
  have hsel : selectNode id s = { s with selectedNodeId := some id, nodes := highlightConnections id s.nodes s.edges } := by
    simp only [selectNode]
    rw [if_neg h0, if_neg h1, hobj]
  have hnoself : ¬ Connected id id s.edges := by
    rintro ⟨e, he, h | h⟩
    · exact h3 e he ⟨h.1, h.2⟩
    · exact h3 e he ⟨h.2, h.1⟩
  have hchar := highlightConnections_eq' id s.nodes s.edges
  have hsel_iff : ∀ k : String, highlightFor id s.edges k = HState.selected ↔ k = id := by
    intro k
    unfold highlightFor
    constructor
    · intro hx
      by_cases hm : k ∈ (getConnectedEdges id s.edges).map (otherEnd id)
      · rw [if_pos hm] at hx
        exact absurd hx (by decide)
      · rw [if_neg hm] at hx
        by_cases hki : k = id
        · exact hki
        · rw [if_neg hki] at hx
          exact absurd hx (by decide)
    · intro hki
      have hmm : k ∉ (getConnectedEdges id s.edges).map (otherEnd id) := by
        rw [hki, mem_otherEnds_iff]
        exact hnoself
      rw [if_neg hmm, if_pos hki]
  rw [hsel]
  refine ⟨rfl, ?_, ?_⟩
  · intro p hp
    simp only at hp
    rw [hchar] at hp
    obtain ⟨q, hq, rfl⟩ := List.mem_map.mp hp
    dsimp only
    unfold highlightFor
    by_cases hq1 : q.1 = id
    · have hmm : q.1 ∉ (getConnectedEdges id s.edges).map (otherEnd id) := by
        rw [hq1, mem_otherEnds_iff]
        exact hnoself
      rw [if_neg hmm, if_pos hq1, if_pos hq1]
    · by_cases hq2 : Connected id q.1 s.edges
      · rw [if_pos ((mem_otherEnds_iff id q.1 s.edges).mpr hq2), if_neg hq1,
          if_pos hq2]
      · rw [if_neg (fun hx => hq2 ((mem_otherEnds_iff id q.1 s.edges).mp hx)),
          if_neg hq1, if_neg hq1, if_neg hq2]
  · simp only
    rw [hchar]
    have hfm : ∀ l : NodeMap,
        (l.map (fun p => (p.1, { p.2 with hstate := highlightFor id s.edges p.1 }))).filter
          (fun p => p.2.hstate = HState.selected) =
        (l.filter (fun p => p.1 = id)).map
          (fun p => (p.1, { p.2 with hstate := highlightFor id s.edges p.1 })) := by
      intro l
      induction l with
      | nil => rfl
      | cons hd tl ih =>
        simp only [List.map_cons]
        by_cases hk : hd.1 = id
        · rw [List.filter_cons_of_pos (by
              simp only [decide_eq_true_eq]
              exact (hsel_iff hd.1).mpr hk),
            List.filter_cons_of_pos (by
              simp only [decide_eq_true_eq]
              exact hk),
            List.map_cons, ih]
        · rw [List.filter_cons_of_neg (by
              simp only [decide_eq_true_eq]
              exact fun hx => hk ((hsel_iff hd.1).mp hx)),
            List.filter_cons_of_neg (by
              simp only [decide_eq_true_eq]
              exact hk),
            ih]
    rw [hfm, List.map_map]
    have hcomp : (Prod.fst ∘ fun p : String × NodeObj =>
        (p.1, { p.2 with hstate := highlightFor id s.edges p.1 })) = Prod.fst := rfl
    rw [hcomp]
    exact filter_key_singleton id s.nodes h4 h2

/-- Selection state with two nodes `"a"` and `"b"` joined by one
relation, nothing selected. -/
def twoNodeSelState : SelState where
  selectedNodeId := none
  nodes := [("a", plainNode), ("b", plainNode)]
  edges := [{ source := "a", target := "b", type := "proves" }]

/-- Witness for C7: two nodes `"a"`, `"b"` joined by one relation;
selecting `"a"` marks `"a"` selected and leaves `"a"` the unique
selected entity. -/
theorem select_highlight_spec_witness :
    (selectNode "a" twoNodeSelState).selectedNodeId = some "a" ∧
    ((selectNode "a" twoNodeSelState).nodes.filter
      (fun p => p.2.hstate = HState.selected)).map Prod.fst = ["a"] := by
  have h := select_highlight_spec twoNodeSelState "a"
    (by decide) (by simp [twoNodeSelState]) (by simp [twoNodeSelState]) ?_ ?_
  · exact ⟨h.1, h.2.2⟩
  · intro e he
    simp only [twoNodeSelState, List.mem_singleton] at he
    rw [he]
    rintro ⟨-, hx⟩
    exact absurd hx (by decide)
  · simp [twoNodeSelState, plainNode]

/-! ## C8: directional selection -/

theorem scanFold_spec (selId : String) (cur : Vec3) (dir : Direction) :
    ∀ (l : NodeMap) (acc : Option (String × ℝ)),
      (l.foldl (scanStep selId cur dir) acc = none →
        acc = none ∧
        ∀ q ∈ l, ¬(q.1 ≠ selId ∧ isRightDirection dir q.2.position cur = true)) ∧
      (∀ b bd, l.foldl (scanStep selId cur dir) acc = some (b, bd) →
        (acc = some (b, bd) ∨ ∃ q ∈ l, q.1 ≠ selId ∧
          isRightDirection dir q.2.position cur = true ∧ q.1 = b ∧
          bd = dist3 q.2.position cur) ∧
        (∀ q ∈ l, q.1 ≠ selId → isRightDirection dir q.2.position cur = true →
          bd ≤ dist3 q.2.position cur) ∧
        (∀ a ad, acc = some (a, ad) → bd ≤ ad)) := by
  intro l
  induction l with
  | nil =>
    intro acc
    constructor
    · intro h
      exact ⟨h, fun q hq => absurd hq (List.not_mem_nil q)⟩
    · intro b bd h
      refine ⟨Or.inl h, fun q hq => absurd hq (List.not_mem_nil q), ?_⟩
      intro a ad ha
      have h2 : (a, ad) = (b, bd) := Option.some_inj.mp (ha.symm.trans h)
      exact le_of_eq (congrArg Prod.snd h2).symm
  | cons p l ih =>
    intro acc
    by_cases hsel : p.1 = selId
    · have hstep : scanStep selId cur dir acc p = acc := by
        unfold scanStep
        rw [if_pos hsel]
      constructor
      · intro h
        rw [List.foldl_cons, hstep] at h
        obtain ⟨h1, h2⟩ := (ih acc).1 h
        refine ⟨h1, fun q hq => ?_⟩
        rcases List.mem_cons.mp hq with rfl | hq'
        · rintro ⟨hne, -⟩
          exact hne hsel
        · exact h2 q hq'
      · intro b bd h
        rw [List.foldl_cons, hstep] at h
        obtain ⟨h1, h2, h3⟩ := (ih acc).2 b bd h
        refine ⟨?_, ?_, h3⟩
        · rcases h1 with h1 | ⟨q, hq, hcand⟩
          · exact Or.inl h1
          · exact Or.inr ⟨q, List.mem_cons_of_mem p hq, hcand⟩
        · intro q hq hne hdir
          rcases List.mem_cons.mp hq with rfl | hq'
          · exact absurd hsel hne
          · exact h2 q hq' hne hdir
    · by_cases hdir : isRightDirection dir p.2.position cur = true
      · cases acc with
        | none =>
          have hstep : scanStep selId cur dir none p =
              some (p.1, dist3 p.2.position cur) := by
            unfold scanStep
            rw [if_neg hsel, if_pos hdir]
          constructor
          · intro h
            rw [List.foldl_cons, hstep] at h
            obtain ⟨h1, -⟩ := (ih _).1 h
            exact absurd h1 (Option.some_ne_none _)
          · intro b bd h
            rw [List.foldl_cons, hstep] at h
            obtain ⟨h1, h2, h3⟩ := (ih _).2 b bd h
            refine ⟨?_, ?_, ?_⟩
            · rcases h1 with h1 | ⟨q, hq, hcand⟩
              · have h4 : (p.1, dist3 p.2.position cur) = (b, bd) :=
                  Option.some_inj.mp h1
                exact Or.inr ⟨p, List.mem_cons_self p l, hsel, hdir,
                  (congrArg Prod.fst h4), (congrArg Prod.snd h4).symm⟩
              · exact Or.inr ⟨q, List.mem_cons_of_mem p hq, hcand⟩
            · intro q hq hne hdirq
              rcases List.mem_cons.mp hq with rfl | hq'
              · exact h3 q.1 (dist3 q.2.position cur) rfl
              · exact h2 q hq' hne hdirq
            · intro a ad ha
              exact Option.noConfusion ha
        | some pair =>
          obtain ⟨a0, ad0⟩ := pair
          by_cases hlt : dist3 p.2.position cur < ad0
          · have hstep : scanStep selId cur dir (some (a0, ad0)) p =
                some (p.1, dist3 p.2.position cur) := by
              unfold scanStep
              rw [if_neg hsel, if_pos hdir]
              dsimp only
              rw [if_pos hlt]
            constructor
            · intro h
              rw [List.foldl_cons, hstep] at h
              obtain ⟨h1, -⟩ := (ih _).1 h
              exact absurd h1 (Option.some_ne_none _)
            · intro b bd h
              rw [List.foldl_cons, hstep] at h
              obtain ⟨h1, h2, h3⟩ := (ih _).2 b bd h
              have hbd : bd ≤ dist3 p.2.position cur :=
                h3 p.1 (dist3 p.2.position cur) rfl
              refine ⟨?_, ?_, ?_⟩
              · rcases h1 with h1 | ⟨q, hq, hcand⟩
                · have h4 : (p.1, dist3 p.2.position cur) = (b, bd) :=
                    Option.some_inj.mp h1
                  exact Or.inr ⟨p, List.mem_cons_self p l, hsel, hdir,
                    (congrArg Prod.fst h4), (congrArg Prod.snd h4).symm⟩
                · exact Or.inr ⟨q, List.mem_cons_of_mem p hq, hcand⟩
              · intro q hq hne hdirq
                rcases List.mem_cons.mp hq with rfl | hq'
                · exact hbd
                · exact h2 q hq' hne hdirq
              · intro a ad ha
                have h4 : (a, ad) = (a0, ad0) := Option.some_inj.mp ha.symm
                have had : ad = ad0 := congrArg Prod.snd h4
                rw [had]
                exact le_trans hbd (le_of_lt hlt)
          · have hstep : scanStep selId cur dir (some (a0, ad0)) p =
                some (a0, ad0) := by
              unfold scanStep
              rw [if_neg hsel, if_pos hdir]
              dsimp only
              rw [if_neg hlt]
            constructor
            · intro h
              rw [List.foldl_cons, hstep] at h
              obtain ⟨h1, -⟩ := (ih _).1 h
              exact absurd h1 (Option.some_ne_none _)
            · intro b bd h
              rw [List.foldl_cons, hstep] at h
              obtain ⟨h1, h2, h3⟩ := (ih _).2 b bd h
              have hbd0 : bd ≤ ad0 := h3 a0 ad0 rfl
              refine ⟨?_, ?_, ?_⟩
              · rcases h1 with h1 | ⟨q, hq, hcand⟩
                · exact Or.inl h1
                · exact Or.inr ⟨q, List.mem_cons_of_mem p hq, hcand⟩
              · intro q hq hne hdirq
                rcases List.mem_cons.mp hq with rfl | hq'
                · exact le_trans hbd0 (not_lt.mp hlt)
                · exact h2 q hq' hne hdirq
              · intro a ad ha
                have h4 : (a, ad) = (a0, ad0) := Option.some_inj.mp ha.symm
                have had : ad = ad0 := congrArg Prod.snd h4
                rw [had]
                exact hbd0
      · have hstep : scanStep selId cur dir acc p = acc := by
          unfold scanStep
          rw [if_neg hsel, if_neg hdir]
        constructor
        · intro h
          rw [List.foldl_cons, hstep] at h
          obtain ⟨h1, h2⟩ := (ih acc).1 h
          refine ⟨h1, fun q hq => ?_⟩
          rcases List.mem_cons.mp hq with rfl | hq'
          · rintro ⟨-, hd⟩
            exact hdir hd
          · exact h2 q hq'
        · intro b bd h
          rw [List.foldl_cons, hstep] at h
          obtain ⟨h1, h2, h3⟩ := (ih acc).2 b bd h
          refine ⟨?_, ?_, h3⟩
          · rcases h1 with h1 | ⟨q, hq, hcand⟩
            · exact Or.inl h1
            · exact Or.inr ⟨q, List.mem_cons_of_mem p hq, hcand⟩
          · intro q hq hne hdirq
            rcases List.mem_cons.mp hq with rfl | hq'
            · exact absurd hdirq hdir
            · exact h2 q hq' hne hdirq

/-- C8.  `selectNextNode(direction)` with an entity selected considers
every other entity, keeps exactly those strictly on the direction side
along the relevant axis, and selects the kept candidate with the
smallest Euclidean distance to the selected entity (ties go to the
earlier entry); it is a no-op when nothing is selected, when the
selected entity is missing, or when no candidate qualifies. -/
theorem select_directional_spec (s : SelState) (dir : Direction) :
    (s.selectedNodeId = none → selectNextNode dir s = s) ∧
    (∀ selId, s.selectedNodeId = some selId → lookupNode selId s.nodes = none →
      selectNextNode dir s = s) ∧
    (∀ selId cur, s.selectedNodeId = some selId →
      lookupNode selId s.nodes = some cur →
      ((scanBest selId cur.position dir s.nodes = none →
        (∀ q ∈ s.nodes, ¬(q.1 ≠ selId ∧
          isRightDirection dir q.2.position cur.position = true)) ∧
        selectNextNode dir s = s) ∧
      (∀ b bd, scanBest selId cur.position dir s.nodes = some (b, bd) →
        (∃ q ∈ s.nodes, q.1 ≠ selId ∧
          isRightDirection dir q.2.position cur.position = true ∧ q.1 = b ∧
          bd = dist3 q.2.position cur.position) ∧
        (∀ q ∈ s.nodes, q.1 ≠ selId →
          isRightDirection dir q.2.position cur.position = true →
          bd ≤ dist3 q.2.position cur.position) ∧
        selectNextNode dir s = (if b = "" then s else selectNode b s)))) := by
  refine ⟨fun h => ?_, fun selId h1 h2 => ?_, fun selId cur h1 h2 => ⟨fun hscan => ?_, fun b bd hscan => ?_⟩⟩
  · simp only [selectNextNode, h]
  · simp only [selectNextNode, h1, h2]
  · obtain ⟨-, hnone⟩ := (scanFold_spec selId cur.position dir s.nodes none).1 hscan
    exact ⟨hnone, by simp only [selectNextNode, h1, h2, hscan]⟩
  · obtain ⟨h1', h2', -⟩ :=
      (scanFold_spec selId cur.position dir s.nodes none).2 b bd hscan
    refine ⟨?_, h2', ?_⟩
    · rcases h1' with h | hw
      · exact Option.noConfusion h
      · exact hw
    · simp only [selectNextNode, h1, h2, hscan]

/-- A default-state node at a given position, for concrete directional
navigation scenarios. -/
def nodeAt (v : Vec3) : NodeObj where
  position := v
  connections := 0
  level := 1
  hstate := HState.default

/-- Selection state with the origin node `"a"` selected, a node `"b"`
10 units above it and a node `"c"` 10 units below it. -/
def dirNavState : SelState where
  selectedNodeId := some "a"
  nodes := [("a", nodeAt ⟨0, 0, 0⟩), ("b", nodeAt ⟨0, 10, 0⟩), ("c", nodeAt ⟨0, -10, 0⟩)]
  edges := []

/-- Witness for C8: with entities at `(0,0,0)` (selected), `(0,10,0)`
and `(0,-10,0)`, direction `up` selects the `(0,10,0)` entity. -/
theorem select_directional_spec_witness :
    (selectNextNode Direction.up dirNavState).selectedNodeId = some "b" := by
  have hbT : isRightDirection Direction.up (nodeAt ⟨0, 10, 0⟩).position
      (nodeAt ⟨0, 0, 0⟩).position = true := by
    simp only [isRightDirection, nodeAt, decide_eq_true_eq]
    norm_num
  have hcF : isRightDirection Direction.up (nodeAt ⟨0, -10, 0⟩).position
      (nodeAt ⟨0, 0, 0⟩).position = false := by
    simp only [isRightDirection, nodeAt]
    norm_num
  have s1 : scanStep "a" (nodeAt ⟨0, 0, 0⟩).position Direction.up none
      ("a", nodeAt ⟨0, 0, 0⟩) = none := by
    unfold scanStep
    rw [if_pos rfl]
  have s2 : scanStep "a" (nodeAt ⟨0, 0, 0⟩).position Direction.up none
      ("b", nodeAt ⟨0, 10, 0⟩) =
      some ("b", dist3 (nodeAt ⟨0, 10, 0⟩).position (nodeAt ⟨0, 0, 0⟩).position) := by
    unfold scanStep
    rw [if_neg (by decide), if_pos hbT]
  have s3 : scanStep "a" (nodeAt ⟨0, 0, 0⟩).position Direction.up
      (some ("b", dist3 (nodeAt ⟨0, 10, 0⟩).position (nodeAt ⟨0, 0, 0⟩).position))
      ("c", nodeAt ⟨0, -10, 0⟩) =
      some ("b", dist3 (nodeAt ⟨0, 10, 0⟩).position (nodeAt ⟨0, 0, 0⟩).position) := by
    unfold scanStep
    rw [if_neg (by decide), if_neg (by rw [hcF]; exact Bool.false_ne_true)]
  have hscan : scanBest "a" (nodeAt ⟨0, 0, 0⟩).position Direction.up
      dirNavState.nodes =
      some ("b", dist3 (nodeAt ⟨0, 10, 0⟩).position (nodeAt ⟨0, 0, 0⟩).position) := by
    show List.foldl _ _ _ = _
    rw [show dirNavState.nodes = [("a", nodeAt ⟨0, 0, 0⟩), ("b", nodeAt ⟨0, 10, 0⟩),
      ("c", nodeAt ⟨0, -10, 0⟩)] from rfl]
    rw [List.foldl_cons, s1, List.foldl_cons, s2, List.foldl_cons, s3, List.foldl_nil]
  have h := ((select_directional_spec dirNavState Direction.up).2.2 "a"
    (nodeAt ⟨0, 0, 0⟩) rfl rfl).2 "b"
    (dist3 (nodeAt ⟨0, 10, 0⟩).position (nodeAt ⟨0, 0, 0⟩).position) hscan
  rw [h.2.2, if_neg (by decide)]
  rfl

/-! ## C9: selection of a missing id -/

/-- Selection state holding a single node `"a"`, nothing selected. -/
def singleNodeSelState : SelState where
  selectedNodeId := none
  nodes := [("a", plainNode)]
  edges := []

/-- C9 counterexample.  Selecting the id `"ghost"`, which is not in the
entity set, is not a complete no-op: the stored `selectedNodeId` is
overwritten to `"ghost"` before the existence check runs, so the
selection state does change. -/
theorem select_missing_id_counterexample :
    lookupNode "ghost" singleNodeSelState.nodes = none ∧
    singleNodeSelState.selectedNodeId = none ∧
    (selectNode "ghost" singleNodeSelState).selectedNodeId = some "ghost" := by
  refine ⟨rfl, rfl, rfl⟩

/-- C9 (amended).  For a (nonempty) id not present in the entity set,
`select(id)` raises no error and leaves every entity's highlight state
(and the whole node and edge data) unchanged, but it does overwrite the
stored `selectedNodeId` with the missing id, because the id is stored
before the existence check; for the empty (falsy) id the call is a
complete no-op. -/
theorem select_missing_id_spec (s : SelState) (id : String) (h0 : id ≠ "")
    (h1 : lookupNode id s.nodes = none) :
    selectNode id s = { s with selectedNodeId := some id } ∧
    selectNode "" s = s := by
  constructor
  · simp only [selectNode]
    rw [if_neg h0]
    by_cases h2 : s.selectedNodeId = some id
    · rw [if_pos h2]
    · rw [if_neg h2, h1]
  · simp [selectNode]

/-- Witness for C9: selecting `"ghost"` in the single-node state only
changes the stored selection. -/
theorem select_missing_id_spec_witness :
    ("ghost" : String) ≠ "" ∧
    selectNode "ghost" singleNodeSelState =
      { singleNodeSelState with selectedNodeId := some "ghost" } :=
  ⟨by decide, (select_missing_id_spec singleNodeSelState "ghost" (by decide) rfl).1⟩

/-! ## C10: setter non-interference -/

/-- Two simulation states that agree on everything except the four
force-parameter fields that the setters touch (`dampingFactor`,
`repulsionStrength`, `attractionStrength`, `levelConstraintStrength`). -/
def AgreeExceptParams (s t : SimState) : Prop :=
  s.useForces = t.useForces ∧ s.isSimulating = t.isSimulating ∧
  s.is2DMode = t.is2DMode ∧ s.centerPullStrength = t.centerPullStrength ∧
  s.maxDistance = t.maxDistance ∧ s.stabilityCounter = t.stabilityCounter ∧
  s.autoDisableTimerArmed = t.autoDisableTimerArmed ∧
  s.timerEpoch = t.timerEpoch ∧ s.minNodeDistance = t.minNodeDistance ∧
  s.nodes = t.nodes ∧ s.edges = t.edges

theorem agreeExceptParams_refl (s : SimState) : AgreeExceptParams s s :=
  ⟨rfl, rfl, rfl, rfl, rfl, rfl, rfl, rfl, rfl, rfl, rfl⟩

theorem agreeExceptParams_trans {s t u : SimState}
    (h1 : AgreeExceptParams s t) (h2 : AgreeExceptParams t u) :
    AgreeExceptParams s u := by
  obtain ⟨a1, a2, a3, a4, a5, a6, a7, a8, a9, a10, a11⟩ := h1
  obtain ⟨b1, b2, b3, b4, b5, b6, b7, b8, b9, b10, b11⟩ := h2
  exact ⟨a1.trans b1, a2.trans b2, a3.trans b3, a4.trans b4, a5.trans b5,
    a6.trans b6, a7.trans b7, a8.trans b8, a9.trans b9, a10.trans b10,
    a11.trans b11⟩

theorem applySetter_agree (c : SetterCall) (s : SimState) :
    AgreeExceptParams (applySetter c s) s := by
  cases c <;>
    exact ⟨rfl, rfl, rfl, rfl, rfl, rfl, rfl, rfl, rfl, rfl, rfl⟩

theorem applySetters_agree (calls : List SetterCall) :
    ∀ s : SimState, AgreeExceptParams (applySetters calls s) s := by
  induction calls with
  | nil => intro s; exact agreeExceptParams_refl s
  | cons c calls ih =>
    intro s
    show AgreeExceptParams (applySetters calls (applySetter c s)) s
    exact agreeExceptParams_trans (ih (applySetter c s)) (applySetter_agree c s)

theorem agree_eq_update {s t : SimState} (h : AgreeExceptParams s t) :
    t = { s with dampingFactor := t.dampingFactor, repulsionStrength := t.repulsionStrength, attractionStrength := t.attractionStrength, levelConstraintStrength := t.levelConstraintStrength } := by
  obtain ⟨a1, a2, a3, a4, a5, a6, a7, a8, a9, a10, a11⟩ := h
  cases s
  cases t
  dsimp only at a1 a2 a3 a4 a5 a6 a7 a8 a9 a10 a11 ⊢
  subst a1 a2 a3 a4 a5 a6 a7 a8 a9 a10 a11
  rfl

theorem simulateStep_stopped (s : SimState) (h : s.isSimulating = false) :
    simulateStep s = (s, NextCheck.stopped) := by
  simp [simulateStep, h]

theorem simulateStep_paused (s : SimState) (h1 : s.isSimulating = true)
    (h2 : s.useForces = false) : simulateStep s = (s, NextCheck.frame) := by
  simp [simulateStep, h1, h2]

theorem simulateStep_lowHigh (s : SimState) (h1 : s.isSimulating = true)
    (h2 : s.useForces = true) (hc : 60 < s.stabilityCounter + 1)
    (h0 : tickMovement s < 0.5) :
    simulateStep s = (disableForcesAfterStability { s with nodes := (simulatePositions s).1, stabilityCounter := s.stabilityCounter + 1 }, NextCheck.delayMs 500) := by
  have h0' : (simulatePositions s).2 < 0.5 := h0
  simp only [simulateStep, h1, h2, Bool.not_true, Bool.false_eq_true, if_false,
    if_pos h0', if_pos hc]

theorem toggleForces_params (s : SimState) (v1 v2 v3 v4 : ℝ) :
    toggleForces { s with dampingFactor := v1, repulsionStrength := v2, attractionStrength := v3, levelConstraintStrength := v4 } =
      { toggleForces s with dampingFactor := v1, repulsionStrength := v2, attractionStrength := v3, levelConstraintStrength := v4 } := by
  cases huf : s.useForces <;> cases his : s.isSimulating <;>
    simp [toggleForces, startSimulation, resetAutoDisableTimer,
      clearAutoDisableTimer, huf, his]

theorem disableForcesAfterStability_params (s : SimState) (v1 v2 v3 v4 : ℝ) :
    disableForcesAfterStability { s with dampingFactor := v1, repulsionStrength := v2, attractionStrength := v3, levelConstraintStrength := v4 } =
      { disableForcesAfterStability s with dampingFactor := v1, repulsionStrength := v2, attractionStrength := v3, levelConstraintStrength := v4 } := by
  unfold disableForcesAfterStability
  dsimp only
  by_cases hcond : 60 < s.stabilityCounter ∧ s.useForces = true
  · rw [if_pos hcond, if_pos hcond, toggleForces_params]
  · rw [if_neg hcond, if_neg hcond]

theorem simulateStep_params (s : SimState) (v1 v2 v3 v4 : ℝ) :
    simulateStep { s with dampingFactor := v1, repulsionStrength := v2, attractionStrength := v3, levelConstraintStrength := v4 } =
      ({ (simulateStep s).1 with dampingFactor := v1, repulsionStrength := v2, attractionStrength := v3, levelConstraintStrength := v4 }, (simulateStep s).2) := by
  generalize hg : ({ s with dampingFactor := v1, repulsionStrength := v2, attractionStrength := v3, levelConstraintStrength := v4 } : SimState) = u
  have hpsim : u.isSimulating = s.isSimulating := by rw [← hg]
  have hpuf : u.useForces = s.useForces := by rw [← hg]
  have hpsc : u.stabilityCounter = s.stabilityCounter := by rw [← hg]
  have hpmv : tickMovement u = tickMovement s := by rw [← hg]; rfl
  cases his : s.isSimulating with
  | false =>
    rw [simulateStep_stopped s his, simulateStep_stopped u (hpsim.trans his),
      ← hg]
  | true =>
    cases huf : s.useForces with
    | false =>
      rw [simulateStep_paused s his huf,
        simulateStep_paused u (hpsim.trans his) (hpuf.trans huf), ← hg]
    | true =>
      rcases lt_or_le (tickMovement s) 0.5 with hm | hm
      · by_cases hc : s.stabilityCounter + 1 ≤ 60
        · rw [simulateStep_low s his huf hc hm,
            simulateStep_low u (hpsim.trans his) (hpuf.trans huf)
              (by rw [hpsc]; exact hc) (by rw [hpmv]; exact hm), ← hg]
          rw [show simulatePositions ({ s with dampingFactor := v1, repulsionStrength := v2, attractionStrength := v3, levelConstraintStrength := v4 } : SimState) = simulatePositions s from rfl]
        · rw [simulateStep_lowHigh s his huf (by omega) hm,
            simulateStep_lowHigh u (hpsim.trans his) (hpuf.trans huf)
              (by rw [hpsc]; omega) (by rw [hpmv]; exact hm), ← hg]
          rw [show ({ ({ s with dampingFactor := v1, repulsionStrength := v2, attractionStrength := v3, levelConstraintStrength := v4 } : SimState) with nodes := (simulatePositions ({ s with dampingFactor := v1, repulsionStrength := v2, attractionStrength := v3, levelConstraintStrength := v4 } : SimState)).1, stabilityCounter := ({ s with dampingFactor := v1, repulsionStrength := v2, attractionStrength := v3, levelConstraintStrength := v4 } : SimState).stabilityCounter + 1 } : SimState) = { ({ s with nodes := (simulatePositions s).1, stabilityCounter := s.stabilityCounter + 1 } : SimState) with dampingFactor := v1, repulsionStrength := v2, attractionStrength := v3, levelConstraintStrength := v4 } from rfl]
          rw [disableForcesAfterStability_params]
      · rw [simulateStep_reset s his huf hm,
          simulateStep_reset u (hpsim.trans his) (hpuf.trans huf)
            (by rw [hpmv]; exact hm), ← hg]
        rfl

theorem simulateStep_agree {s t : SimState} (h : AgreeExceptParams s t) :
    AgreeExceptParams (simulateStep s).1 (simulateStep t).1 := by
  obtain ⟨v1, v2, v3, v4, rfl⟩ :
      ∃ v1 v2 v3 v4, t = { s with dampingFactor := v1, repulsionStrength := v2, attractionStrength := v3, levelConstraintStrength := v4 } :=
    ⟨t.dampingFactor, t.repulsionStrength, t.attractionStrength,
      t.levelConstraintStrength, agree_eq_update h⟩
  rw [simulateStep_params s v1 v2 v3 v4]
  exact ⟨rfl, rfl, rfl, rfl, rfl, rfl, rfl, rfl, rfl, rfl, rfl⟩

/-- C10.  The outcome of the simulation ticks does not depend on the
values passed to `setDampingFactor`, `setRepulsionStrength`,
`setAttractionStrength` or `setLevelConstraintStrength`: any sequence of
such setter calls leaves the node data untouched, and after any number
of ticks the node positions are identical to those of a run without the
setter calls, because `updatePositionsWithForces` uses hard-coded
constants (damping `0.03`, repulsion `30`, attraction
`0.01 * connections`, level constraint `0.01`) and each setter writes
only its own configuration field. -/
theorem setter_noninterference_spec (s : SimState) (calls : List SetterCall)
    (n : ℕ) :
    (runTicks n (applySetters calls s)).nodes = (runTicks n s).nodes ∧
    (applySetters calls s).nodes = s.nodes := by
  have hAg : ∀ (m : ℕ) (a b : SimState), AgreeExceptParams a b →
      AgreeExceptParams (runTicks m a) (runTicks m b) := by
    intro m
    induction m with
    | zero => intro a b hab; exact hab
    | succ m ih =>
      intro a b hab
      exact ih _ _ (simulateStep_agree hab)
  have h := applySetters_agree calls s
  exact ⟨(hAg n _ _ h).2.2.2.2.2.2.2.2.2.1, h.2.2.2.2.2.2.2.2.2.1⟩

end WTG
